import Mathlib

/-!
Shallow embedding of the matching and fairness-allocation core of the
mcc_carpools_backend Flask application (src/app.py), together with proofs
about its behaviour.

Modelling conventions:
* Python strings are Lean `String`s; a value that may be `None` is an
  `Option String`.  Python truthiness of a string value (`None` and `""`
  are falsy) is `pyTruthyStr`.
* Python dicts (which preserve insertion order and have unique keys) are
  association lists `List (String × β)`; `dGet`/`dSet`/`dDel` mirror
  `d[k]` / `d[k] = v` / `del d[k]` on the first occurrence of a key.
* Latitude/longitude floats are modelled as rationals; the region table of
  `get_region` only compares against exact decimal literals, so this is
  faithful for every input that is exactly representable.
* Code that can raise a Python exception which is observed by a caller is
  modelled with `Except Unit`.
* Firestore reads/writes are made explicit: each modelled operation takes
  the documents it reads as arguments and returns the documents it writes.
-/

/-- Python `s.upper()` on the ASCII data of this application, one
character at a time (implemented structurally so that concrete values
reduce inside the kernel, which the built-in byte-position based string
functions do not). -/
def toUpperStr (s : String) : String :=
  String.mk (s.toList.map Char.toUpper)

/-- Python `s.lower()` on the ASCII data of this application. -/
def toLowerStr (s : String) : String :=
  String.mk (s.toList.map Char.toLower)

/-- Python `s.split(sep)` for a one-character separator, keeping empty
pieces; the result is always nonempty. -/
def splitOnCharAux (c : Char) : List Char → List (List Char)
  | [] => [[]]
  | x :: rest =>
    match splitOnCharAux c rest with
    | [] => [[]]
    | h :: t => if x = c then [] :: h :: t else (x :: h) :: t

/-- Python `s.split(sep)` for a one-character separator string. -/
def splitOnChar (c : Char) (s : String) : List String :=
  (splitOnCharAux c s.toList).map String.mk

/-- Python `s.split(', ')`: split on every non-overlapping occurrence of
the two-character separator, left to right, keeping empty pieces. -/
def splitOnCommaSpaceAux : List Char → List (List Char)
  | [] => [[]]
  | [x] => [[x]]
  | x :: y :: rest =>
    if x = ',' ∧ y = ' ' then
      match splitOnCommaSpaceAux rest with
      | [] => [[]]
      | r => [] :: r
    else
      match splitOnCommaSpaceAux (y :: rest) with
      | [] => [[]]
      | h :: t => (x :: h) :: t

/-- Python `s.split(', ')` on strings. -/
def splitOnCommaSpace (s : String) : List String :=
  (splitOnCommaSpaceAux s.toList).map String.mk

/-- Python substring test: `needle in hay` for strings, by scanning every
suffix of the haystack. -/
def containsSub (needle hay : String) : Bool :=
  go needle.toList hay.toList
where
  go (n : List Char) (h : List Char) : Bool :=
    n.isPrefixOf h || match h with
      | [] => false
      | _ :: t => go n t

/-- Python `int(s)` on a decimal string: optional surrounding spaces, an
optional sign, then a nonempty run of digits; anything else raises
`ValueError` (modelled as `Except.error ()`). -/
def pyInt (s : String) : Except Unit Int :=
  let t := (s.toList.dropWhile (· = ' ')).reverse.dropWhile (· = ' ') |>.reverse
  match t with
  | '-' :: ds => if ds ≠ [] ∧ ds.all Char.isDigit then .ok (-(digitsToNat ds)) else .error ()
  | '+' :: ds => if ds ≠ [] ∧ ds.all Char.isDigit then .ok (digitsToNat ds) else .error ()
  | ds => if ds ≠ [] ∧ ds.all Char.isDigit then .ok (digitsToNat ds) else .error ()
where
  digitsToNat (ds : List Char) : Nat :=
    ds.foldl (fun acc c => acc * 10 + (c.toNat - '0'.toNat)) 0

/-- Python truthiness of an optional string: `None` and `""` are falsy. -/
def pyTruthyStr : Option String → Bool
  | none => false
  | some s => s ≠ ""

/-- Python `s.split()` (split on whitespace, dropping empty pieces);
restricted to the space character, the only whitespace in the data. -/
def pySplitWS (s : String) : List String :=
  (splitOnChar ' ' s).filter (· ≠ "")

/-- Dict read `m.get(k)`: value at the first occurrence of key `k`. -/
def dGet {β : Type} (m : List (String × β)) (k : String) : Option β :=
  match m with
  | [] => none
  | (k', v') :: rest => if k' = k then some v' else dGet rest k

/-- Dict write `m[k] = v`: replace the value at the first occurrence of
`k`, or append a new entry (insertion order semantics of Python dicts). -/
def dSet {β : Type} (m : List (String × β)) (k : String) (v : β) : List (String × β) :=
  match m with
  | [] => [(k, v)]
  | (k', v') :: rest => if k' = k then (k, v) :: rest else (k', v') :: dSet rest k v

/-- Dict delete `del m[k]`: drop the first occurrence of key `k` (a no-op
when the key is absent, which in `app.py` never happens unguarded). -/
def dDel {β : Type} (m : List (String × β)) (k : String) : List (String × β) :=
  match m with
  | [] => []
  | (k', v') :: rest => if k' = k then rest else (k', v') :: dDel rest k

/-! ## TimeWindow: `time_to_minutes` and `time_overlaps` (app.py 341-396) -/

/-- Arithmetic core of `time_to_minutes` (app.py 364-377) once `hour`,
`minute` and the `AM`/`PM` token have been extracted: hours ≥ 13 are kept
as 24-hour values; otherwise `PM` (with hour ≠ 12) adds 12 hours and
`AM` with hour 12 resets the hour to 0. -/
def minutesFromParts (hour minute : Int) (ampm : String) : Int :=
  if 13 ≤ hour then hour * 60 + minute
  else if containsSub "PM" ampm ∧ hour ≠ 12 then (hour + 12) * 60 + minute
  else if containsSub "AM" ampm ∧ hour = 12 then minute
  else hour * 60 + minute

/-- The nested helper `time_to_minutes` of `time_overlaps` (app.py
345-379).  A falsy input returns 0; a string without a colon returns 0
(the final fallthrough); otherwise the text before the first colon is the
hour and the text after it is split on a space into minute and `AM`/`PM`
token.  `int()` on non-numeric text, and unpacking a whitespace-split
that does not have exactly two pieces, raise `ValueError`
(`Except.error`), which the enclosing `try` of `time_overlaps` catches. -/
def time_to_minutes (time_str : Option String) : Except Unit Int :=
  match time_str with
  | none => .ok 0
  | some s0 =>
    if s0 = "" then .ok 0
    else
      let s := toUpperStr s0
      if containsSub ":" s then
        match splitOnChar ':' s with
        | hour_str :: minute_part :: _ =>
          let msem : Except Unit (String × String) :=
            if containsSub " " minute_part then
              match pySplitWS minute_part with
              | [m, a] => .ok (m, a)
              | _ => .error ()
            else .ok (minute_part, "")
          match msem with
          | .error _ => .error ()
          | .ok (minute_str, ampm) =>
            match pyInt hour_str, pyInt minute_str with
            | .ok hour, .ok minute => .ok (minutesFromParts hour minute ampm)
            | _, _ => .error ()
        | _ => .ok 0
      else .ok 0

/-- `time_overlaps` (app.py 341-396): convert the four endpoints to
minutes and test strict interval overlap; any exception from the
conversions makes the whole check return `False`. -/
def time_overlaps (start1 end1 start2 end2 : Option String) : Bool :=
  match time_to_minutes start1, time_to_minutes end1,
        time_to_minutes start2, time_to_minutes end2 with
  | .ok s1, .ok e1, .ok s2, .ok e2 => decide (max s1 s2 < min e1 e2)
  | _, _, _, _ => false

/-! ## RegionClassifier: `get_region` (app.py 181-209) -/

/-- `get_region` (app.py 181-209): fixed axis-aligned bounding boxes plus
a case-insensitive substring rule on the address; an empty result becomes
the sentinel `["Unknown"]`. -/
def get_region (address : String) (lat lng : ℚ) : List String :=
  let regions : List String :=
    (if 42.279277 ≤ lat ∧ lat ≤ 42.286811 ∧ -83.747954 ≤ lng ∧ lng ≤ -83.733047
      then ["kerrytown"] else []) ++
    (if 42.271742 ≤ lat ∧ lat ≤ 42.279677 ∧ -83.747954 ≤ lng ∧ lng ≤ -83.733047
      then ["central"] else []) ++
    (if 42.274770 ≤ lat ∧ lat ≤ 42.286811 ∧ -83.733447 ≤ lng ∧ lng ≤ -83.722809
      then ["hill"] else []) ++
    (if 42.264330 ≤ lat ∧ lat ≤ 42.272142 ∧ -83.747954 ≤ lng ∧ lng ≤ -83.733047
      then ["lower_bp"] else []) ++
    (if 42.264330 ≤ lat ∧ lat ≤ 42.275170 ∧ -83.733447 ≤ lng ∧ lng ≤ -83.722809
      then ["upper_bp"] else []) ++
    (if containsSub "pierpont" (toLowerStr address) then ["pierpont"] else [])
  if regions = [] then ["Unknown"] else regions

/-! ## WeekKey: `get_week_key_from_date` (app.py 511-531)

The date parsing and ISO week number below model the documented semantics
of the Python standard library calls the source makes:
`datetime.strptime(date_str, '%m/%d/%y')` and `date.isocalendar()`
(proleptic Gregorian calendar, ISO-8601 week numbering). -/

/-- Gregorian leap year test. -/
def isLeap (y : ℕ) : Bool :=
  decide ((y % 4 = 0 ∧ y % 100 ≠ 0) ∨ y % 400 = 0)

/-- Days in a month of the proleptic Gregorian calendar. -/
def daysInMonth (y m : ℕ) : ℕ :=
  if m = 2 then (if isLeap y then 29 else 28)
  else if m = 4 ∨ m = 6 ∨ m = 9 ∨ m = 11 then 30
  else 31

/-- Day of the year (1-based). -/
def dayOfYear (y m d : ℕ) : ℕ :=
  (List.range (m - 1)).foldl (fun acc i => acc + daysInMonth y (i + 1)) 0 + d

/-- Proleptic Gregorian ordinal: day 1 is 0001-01-01 (a Monday, as in
Python's `datetime.toordinal`). -/
def gregOrdinal (y m d : ℕ) : ℕ :=
  365 * (y - 1) + (y - 1) / 4 + (y - 1) / 400 - (y - 1) / 100 + dayOfYear y m d

/-- ISO weekday: Monday = 1 … Sunday = 7. -/
def isoWeekday (y m d : ℕ) : ℕ :=
  (gregOrdinal y m d - 1) % 7 + 1

/-- Weekday-of-31-December helper for the 52/53-week rule. -/
def pDow (y : ℕ) : ℕ :=
  (y + y / 4 + y / 400 - y / 100) % 7

/-- Number of ISO weeks in year `y` (52 or 53). -/
def isoWeeksInYear (y : ℕ) : ℕ :=
  52 + (if pDow y = 4 ∨ pDow (y - 1) = 3 then 1 else 0)

/-- The ISO-8601 `(year, week)` pair of a date, as returned by the first
two components of Python's `date.isocalendar()`. -/
def isoWeekPair (y m d : ℕ) : ℕ × ℕ :=
  let w := (dayOfYear y m d + 10 - isoWeekday y m d) / 7
  if w < 1 then (y - 1, isoWeeksInYear (y - 1))
  else if isoWeeksInYear y < w then (y + 1, 1)
  else (y, w)

/-- A 1-2 digit decimal field as accepted by one `%m`/`%d`/`%y` directive
of `strptime`. -/
def parseNat2 (s : String) : Option ℕ :=
  let cs := s.toList
  if 1 ≤ cs.length ∧ cs.length ≤ 2 ∧ cs.all Char.isDigit then
    some (cs.foldl (fun acc c => acc * 10 + (c.toNat - '0'.toNat)) 0)
  else none

/-- `datetime.strptime(s, '%m/%d/%y')` (validated month/day, two-digit
year with Python's 1969/2068 pivot); returns `(year, month, day)` or
raises (`none`). -/
def strptimeMDY (s : String) : Option (ℕ × ℕ × ℕ) :=
  match splitOnChar '/' s with
  | [ms, ds, ys] =>
    match parseNat2 ms, parseNat2 ds, parseNat2 ys with
    | some m, some d, some yy =>
      let y := if yy ≤ 68 then 2000 + yy else 1900 + yy
      if 1 ≤ m ∧ m ≤ 12 ∧ 1 ≤ d ∧ d ≤ daysInMonth y m then some (y, m, d) else none
    | _, _, _ => none
  | _ => none

/-- Split a date label like "Monday, 12/16/24" on ", " and parse the
second piece with `strptimeMDY` (app.py 517-520). -/
def parseDateLabel (s : String) : Option (ℕ × ℕ × ℕ) :=
  match splitOnCommaSpace s with
  | _ :: date_str :: _ => strptimeMDY date_str
  | _ => none

/-- `get_week_key_from_date` (app.py 511-531): calendar year of the
parsed date paired with its ISO week NUMBER, rendered as "year-week".
Both failure paths (fewer than two comma pieces, or a `strptime` error)
fall back to the current week, an IO-dependent value modelled as
`none`. -/
def get_week_key_from_date (date_string : String) : Option String :=
  match parseDateLabel date_string with
  | some (y, m, d) => some (toString y ++ "-" ++ toString (isoWeekPair y m d).2)
  | none => none

/-- Modelled from the spec (§3 WeekKey): the week key as the spec
describes it, the ISO `(year, week number)` pair of the date, rendered in
the same "year-week" format the code uses. -/
def isoWeekKeySpec (date_string : String) : Option String :=
  match parseDateLabel date_string with
  | some (y, m, d) =>
    some (toString (isoWeekPair y m d).1 ++ "-" ++ toString (isoWeekPair y m d).2)
  | none => none

/-! ## Data model -/

/-- One availability interval of a rider (spec §3 Slot).  The source field
named `end` is a Lean keyword and is modelled as `stop`; `driver` holds
the id of the drive the slot was paired with, when any. -/
structure Slot where
  start : Option String
  stop : Option String
  driver : Option String
deriving Repr, DecidableEq

/-- A rider document as read by the matching code (app.py 234-238). -/
structure Rider where
  id : String
  name : String
  email : String
  availability : List (String × List Slot)
  divisions : List (String × Bool)
deriving Repr, DecidableEq

/-- A drive document (app.py 653-666 for the fields written at creation;
`region` is read with `.get`, and no writer in the repository ever sets
it, so it is optional).  Numeric fields come from JSON and are read back
with `.get(..., default)`, hence `Option Int`. -/
structure Drive where
  pickup_address : String
  date : String
  start_time : Option String
  end_time : Option String
  total_capacity : Option Int
  remaining_capacity : Option Int
  paired_riders : List String
  status : String
  region : Option (List String)
deriving Repr, DecidableEq

/-! ## FairnessScorer: `calculate_priority_score` (app.py 399-431) -/

/-- `calculate_priority_score` (app.py 399-427).  `base_priority`
abstracts the MD5-seeded `random.randint(1, 1000)` of lines 410-417: a
value in `[1, 1000]` that is a deterministic function of the week key and
the rider's email.  `pairing_history` abstracts
`get_rider_pairing_history` (app.py 434-471), the number of this week's
drives listing the rider in `paired_riders`.  The score itself is
`base + history * 1000` (lines 421-423), lower being better. -/
def calculate_priority_score (base_priority pairing_history : ℕ) : ℕ :=
  base_priority + pairing_history * 1000

/-! ## MatchEngine: `pair_riders_with_drive` (app.py 212-338) -/

/-- Predicate of app.py 273-275: a slot qualifies when both endpoints are
truthy, it overlaps the drive's window, and it is not already paired. -/
def slotEligible (start_time end_time : Option String) (slot : Slot) : Bool :=
  pyTruthyStr slot.start && pyTruthyStr slot.stop &&
  time_overlaps slot.start slot.stop start_time end_time &&
  !(pyTruthyStr slot.driver)

/-- One entry of `compatible_riders` (app.py 307-314). -/
structure CompatRider where
  rider_id : String
  rider_name : String
  rider_email : String
  priority_score : ℕ
  time_slot_index : ℕ
deriving Repr, DecidableEq

/-- The candidate filter of `pair_riders_with_drive` (app.py 234-317):
keep riders with a case-insensitively matching date entry, at least one
eligible slot in it, and at least one of the driver's regions marked true
in `divisions`; record the first overlapping slot index (the `next`
generator of line 312, which cannot exhaust because an eligible slot also
satisfies its weaker predicate, so `findIdx` never falls off the end).
The fairness score (a Firestore-and-hash dependent value) is abstracted
by the `priority` argument. -/
def compatibleRiders (priority : Rider → ℕ) (driver_regions : List String)
    (all_riders : List Rider) (date : String)
    (start_time end_time : Option String) : List CompatRider :=
  all_riders.filterMap fun rider =>
    match rider.availability.find? (fun kv => toLowerStr kv.1 = toLowerStr date) with
    | none => none
    | some (_, slots) =>
      if slots.any (slotEligible start_time end_time) then
        if driver_regions.any (fun region => (dGet rider.divisions region).getD false) then
          some { rider_id := rider.id, rider_name := rider.name,
                 rider_email := rider.email,
                 priority_score := priority rider,
                 time_slot_index :=
                   slots.findIdx (fun slot =>
                     time_overlaps slot.start slot.stop start_time end_time) }
        else none
      else none

/-- Python list slice `l[:n]`: a negative bound counts from the end. -/
def pySliceTo {α : Type} (l : List α) (n : Int) : List α :=
  l.take (if n < 0 then l.length - (-n).toNat else n.toNat)

/-- The selection step of `pair_riders_with_drive` (app.py 323-325):
stable ascending sort by priority score, then the first
`car_capacity` entries. -/
def selected_riders (priority : Rider → ℕ) (driver_regions : List String)
    (all_riders : List Rider) (date : String)
    (start_time end_time : Option String) (car_capacity : Int) : List CompatRider :=
  pySliceTo
    ((compatibleRiders priority driver_regions all_riders date start_time end_time).insertionSort
      (fun a b => a.priority_score ≤ b.priority_score))
    car_capacity

/-- `pair_riders_with_drive` (app.py 212-338).  `geo` is the result of
`validate_address` (the external geocoder): `none` models a failed
geocode, which returns the empty list at line 226.  The function then
classifies the pickup point, filters the pool, sorts by score and
returns the selected rider ids. -/
def pair_riders_with_drive (geo : Option (ℚ × ℚ)) (priority : Rider → ℕ)
    (all_riders : List Rider) (date : String)
    (start_time end_time : Option String) (pickup_address : String)
    (car_capacity : Int) : List String :=
  match geo with
  | none => []
  | some (lat, lng) =>
    let driver_regions := get_region pickup_address lat lng
    (selected_riders priority driver_regions all_riders date start_time end_time
      car_capacity).map (·.rider_id)

/-! ## AvailabilityLedger: `update_rider_availability` (app.py 474-508) -/

/-- The tagging loop of app.py 493-497: mark the first slot with truthy
endpoints that overlaps the drive's window with the drive id. -/
def tagFirstOverlap (slots : List Slot) (start_time end_time : Option String)
    (drive_id : String) : List Slot :=
  match slots with
  | [] => []
  | slot :: rest =>
    if pyTruthyStr slot.start && pyTruthyStr slot.stop &&
       time_overlaps slot.start slot.stop start_time end_time then
      { slot with driver := some drive_id } :: rest
    else slot :: tagFirstOverlap rest start_time end_time drive_id

/-- `update_rider_availability` (app.py 474-508).  The rider argument is
the result of `RiderModel.get_by_id`.  Returns the success flag and, when
an update is written, the new value of the rider's `availability` field
(`none` means no write happened).  On success the matched date entry is
first tagged in place and then deleted wholesale. -/
def update_rider_availability (rider : Option Rider) (date : String)
    (start_time end_time : Option String) (drive_id : String) :
    Bool × Option (List (String × List Slot)) :=
  match rider with
  | none => (false, none)
  | some r =>
    match r.availability.find? (fun kv => toLowerStr kv.1 = toLowerStr date) with
    | none => (false, none)
    | some (actual_date_key, slots) =>
      let tagged := dSet r.availability actual_date_key
        (tagFirstOverlap slots start_time end_time drive_id)
      (true, some (dDel tagged actual_date_key))

/-! ## Drive lifecycle: `add_drive`, `update_drive_capacity`,
`signup_for_drive` (app.py 631-698, 786-814, 1008-1101) -/

/-- The drive document created at app.py 653-669: full capacity, no
paired riders, status "available"; no `region` field is written. -/
def initialDrive (address date : String) (start_time end_time : Option String)
    (car_capacity : Int) : Drive :=
  { pickup_address := address, date := date,
    start_time := start_time, end_time := end_time,
    total_capacity := some car_capacity,
    remaining_capacity := some car_capacity,
    paired_riders := [], status := "available", region := none }

/-- The post-pairing update of app.py 682-688: when the engine selected a
nonempty list, store it, set `remaining_capacity` to capacity minus the
number selected, and set the status from that count. -/
def applyPairing (drive : Drive) (paired : List String) (car_capacity : Int) : Drive :=
  if paired = [] then drive
  else
    { drive with
      paired_riders := paired,
      remaining_capacity := some (car_capacity - paired.length),
      status := if (paired.length : Int) < car_capacity then "partially_filled" else "filled" }

/-- `update_drive_capacity` (app.py 786-814): store the client-supplied
`remaining_capacity` verbatim, then recompute the status from it. -/
def update_drive_capacity (drive : Drive) (new_capacity : Int) : Drive :=
  let total := drive.total_capacity.getD 0
  { drive with
    remaining_capacity := some new_capacity,
    status :=
      if new_capacity = 0 then "filled"
      else if new_capacity < total then "partially_filled"
      else "available" }

/-- The drive-side bookkeeping of `signup_for_drive` (app.py 1077-1096),
the spec's `recordAssignment`: a rider id already present leaves the
document untouched (no update is issued); otherwise the id is appended,
`remaining_capacity` is decremented with a floor of zero, and the status
is recomputed. -/
def recordAssignment (drive : Drive) (rider_id : String) : Drive :=
  if rider_id ∈ drive.paired_riders then drive
  else
    let remaining0 := drive.remaining_capacity.getD (drive.total_capacity.getD 0)
    let remaining := max 0 (remaining0 - 1)
    let total := drive.total_capacity.getD 0
    { drive with
      paired_riders := drive.paired_riders ++ [rider_id],
      remaining_capacity := some remaining,
      status :=
        if remaining = 0 then "filled"
        else if remaining < total then "partially_filled"
        else "available" }

/-- Resolution of the drive's regions in `signup_for_drive` (app.py
1026-1035): a truthy stored `region` list is used directly (a legacy dict
value behaves as the list of its keys); otherwise the pickup address is
geocoded and classified — and since the code ignores the failure flag of
`validate_address`, a failed geocode hands `None` coordinates to
`get_region`, which raises a `TypeError` (`Except.error`). -/
def signupDriveRegionKeys (geo : Option (ℚ × ℚ)) (drive : Drive) :
    Except Unit (List String) :=
  match drive.region with
  | some (r :: rs) => .ok (r :: rs)
  | _ =>
    match geo with
    | some (lat, lng) => .ok (get_region drive.pickup_address lat lng)
    | none => .error ()

/-- The region merge of app.py 1037-1040: build `{r: True}` from the
drive's region keys, overlay the flags submitted in the request, then
force every one of the drive's keys back to `True`. -/
def signupMergedRegions (drive_region_keys : List String)
    (regions : List (String × Bool)) : List (String × Bool) :=
  let drive_regions := drive_region_keys.map (fun r => (r, true))
  let merged := regions.foldl (fun m kv => dSet m kv.1 kv.2) drive_regions
  drive_region_keys.foldl (fun m k => dSet m k true) merged

/-- The divisions update for an existing rider (app.py 1055-1057):
`updated[k] = updated.get(k, False) or merged[k]` for every key of the
merged map, in iteration order. -/
def signupUpdatedDivisions (divisions : List (String × Bool))
    (merged : List (String × Bool)) : List (String × Bool) :=
  merged.foldl (fun m kv => dSet m kv.1 ((dGet m kv.1).getD false || kv.2)) divisions

/-- The availability rewrite for an existing rider (app.py 1058-1064):
set the drive's date to exactly the one signup slot, then delete every
other date whose week key equals the drive's week key. -/
def signupUpdatedAvailability (availability : List (String × List Slot))
    (drive_date : String) (slot : Slot) : List (String × List Slot) :=
  let week_key := get_week_key_from_date drive_date
  let ua := dSet availability drive_date [slot]
  (ua.map Prod.fst).foldl
    (fun m d =>
      if d ≠ drive_date ∧ get_week_key_from_date d = week_key then dDel m d else m)
    ua

/-! ## Reachable drive states (claim C2) -/

/-- Drive states reachable through the write operations named by the
spec: creation with engine pairing (`add_drive`), self-service signup
(`recordAssignment`), and the direct capacity edit. -/
inductive DriveReach : Drive → Prop where
  | created (address date : String) (start_time end_time : Option String)
      (car_capacity : Int) (geo : Option (ℚ × ℚ)) (priority : Rider → ℕ)
      (pool : List Rider) :
      DriveReach (applyPairing (initialDrive address date start_time end_time car_capacity)
        (pair_riders_with_drive geo priority pool date start_time end_time address
          car_capacity)
        car_capacity)
  | signup (d : Drive) (rider_id : String) :
      DriveReach d → DriveReach (recordAssignment d rider_id)
  | capEdit (d : Drive) (new_capacity : Int) :
      DriveReach d → DriveReach (update_drive_capacity d new_capacity)

/-- Drive states reachable without the direct capacity edit, and with a
positive creation capacity: the scope on which the capacity/status
invariant actually holds. -/
inductive DriveReachCore : Drive → Prop where
  | created (address date : String) (start_time end_time : Option String)
      (car_capacity : Int) (geo : Option (ℚ × ℚ)) (priority : Rider → ℕ)
      (pool : List Rider) (hcap : 1 ≤ car_capacity) :
      DriveReachCore (applyPairing (initialDrive address date start_time end_time car_capacity)
        (pair_riders_with_drive geo priority pool date start_time end_time address
          car_capacity)
        car_capacity)
  | signup (d : Drive) (rider_id : String) :
      DriveReachCore d → DriveReachCore (recordAssignment d rider_id)

/-! ## Helper lemmas on the dict model -/

theorem dDel_dSet {β : Type} (m : List (String × β)) (k : String) (v : β) :
    dDel (dSet m k v) k = dDel m k := by
  induction m with
  | nil => simp [dSet, dDel]
  | cons hd tl ih =>
    obtain ⟨k', v'⟩ := hd
    by_cases h : k' = k <;> simp [dSet, dDel, h, ih]

/-! ## Claim theorems -/

/-- C7: `time_to_minutes` maps "HH:MM" with optional AM/PM to minutes
since midnight; hours ≥ 13 are used unchanged regardless of the suffix
(so "19:00 PM" and "7:00 PM" both parse to 1140), "12:00 AM" parses to
0, and a PM suffix with hour ≠ 12 adds 12 hours. -/
theorem C7_time_parse_am_pm :
    (time_to_minutes (some "19:00 PM") = .ok 1140) ∧
    (time_to_minutes (some "7:00 PM") = .ok 1140) ∧
    (time_to_minutes (some "12:00 AM") = .ok 0) ∧
    (∀ (h m : Int) (ampm : String), 13 ≤ h →
      minutesFromParts h m ampm = h * 60 + m) ∧
    (∀ (h m : Int) (ampm : String), h < 13 → h ≠ 12 →
      containsSub "PM" ampm = true →
      minutesFromParts h m ampm = (h + 12) * 60 + m) := by
  refine ⟨by rfl, by rfl, by rfl, ?_, ?_⟩
  · intro h m ampm hh
    simp [minutesFromParts, hh]
  · intro h m ampm h13 h12 hpm
    simp [minutesFromParts, not_le.mpr h13, hpm, h12]

/-- Witness for C7 at concrete inputs. -/
theorem C7_time_parse_am_pm_witness :
    minutesFromParts 19 0 "PM" = 19 * 60 + 0 ∧
    minutesFromParts 7 0 "PM" = (7 + 12) * 60 + 0 :=
  ⟨C7_time_parse_am_pm.2.2.2.1 19 0 "PM" (by norm_num),
   C7_time_parse_am_pm.2.2.2.2 7 0 "PM" (by norm_num) (by norm_num) (by rfl)⟩

/-- C6 counterexample: a malformed time containing a colon does raise
inside `time_to_minutes` (the claim says parsing never raises and such
values resolve to 0 minutes), and `time_overlaps` then reports `false`
for the whole test instead of treating the value as midnight (midnight
would overlap 0:30-1:00 here). -/
theorem C6_counterexample :
    time_to_minutes (some "ab:cd") = .error () ∧
    time_overlaps (some "ab:cd") (some "23:00") (some "0:30") (some "1:00") = false ∧
    time_overlaps (some "0:00") (some "23:00") (some "0:30") (some "1:00") = true := by
  exact ⟨rfl, rfl, rfl⟩

/-- C6 amended: a missing, empty, or colon-free time string resolves to 0
minutes, but a colon-containing string whose hour or minute text is
malformed raises `ValueError` inside the helper; `time_overlaps` catches
it and returns `false` for the whole overlap test (a distinct failure
result, not a treat-as-midnight fallback). -/
theorem C6_time_parse_fallback :
    (time_to_minutes none = .ok 0) ∧
    (time_to_minutes (some "") = .ok 0) ∧
    (∀ s : String, containsSub ":" (toUpperStr s) = false →
      time_to_minutes (some s) = .ok 0) ∧
    (∀ s1 e1 s2 e2 : Option String,
      (time_to_minutes s1 = .error () ∨ time_to_minutes e1 = .error () ∨
       time_to_minutes s2 = .error () ∨ time_to_minutes e2 = .error ()) →
      time_overlaps s1 e1 s2 e2 = false) := by
  refine ⟨rfl, rfl, ?_, ?_⟩
  · intro s h
    by_cases hs : s = "" <;> simp [time_to_minutes, hs, h]
  · intro s1 e1 s2 e2 h
    cases h1 : time_to_minutes s1 <;> cases h2 : time_to_minutes e1 <;>
      cases h3 : time_to_minutes s2 <;> cases h4 : time_to_minutes e2 <;>
      simp_all [time_overlaps]

/-- Witness for C6 amended at concrete inputs. -/
theorem C6_time_parse_fallback_witness :
    time_to_minutes (some "1200") = .ok 0 ∧
    time_overlaps (some "ab:cd") (some "23:00") (some "0:30") (some "1:00") = false :=
  ⟨C6_time_parse_fallback.2.2.1 "1200" (by rfl),
   C6_time_parse_fallback.2.2.2 (some "ab:cd") (some "23:00") (some "0:30") (some "1:00")
     (Or.inl (by rfl))⟩

/-- C5: recording an assignment through the signup path is idempotent —
an already-paired rider id leaves the drive untouched — and a first
insertion appends the id, decrements the remaining capacity with a floor
of zero, and recomputes the status from remaining versus total
capacity. -/
theorem C5_record_assignment_idempotent (d : Drive) (rider_id : String) :
    (rider_id ∈ d.paired_riders → recordAssignment d rider_id = d) ∧
    (rider_id ∉ d.paired_riders →
      (recordAssignment d rider_id).paired_riders = d.paired_riders ++ [rider_id] ∧
      (recordAssignment d rider_id).remaining_capacity =
        some (max 0 (d.remaining_capacity.getD (d.total_capacity.getD 0) - 1)) ∧
      (recordAssignment d rider_id).total_capacity = d.total_capacity ∧
      (recordAssignment d rider_id).status =
        (if max 0 (d.remaining_capacity.getD (d.total_capacity.getD 0) - 1) = 0
          then "filled"
         else if max 0 (d.remaining_capacity.getD (d.total_capacity.getD 0) - 1) <
             d.total_capacity.getD 0
          then "partially_filled"
         else "available")) := by
  constructor
  · intro h
    simp [recordAssignment, h]
  · intro h
    refine ⟨?_, ?_, ?_, ?_⟩ <;> simp [recordAssignment, h]

/-- Witness for C5 at a concrete drive, in both the already-present and
the first-insertion case. -/
theorem C5_record_assignment_idempotent_witness :
    (recordAssignment
      { pickup_address := "A", date := "D", start_time := none, end_time := none,
        total_capacity := some 2, remaining_capacity := some 1,
        paired_riders := ["r1"], status := "partially_filled", region := none }
      "r1" =
      { pickup_address := "A", date := "D", start_time := none, end_time := none,
        total_capacity := some 2, remaining_capacity := some 1,
        paired_riders := ["r1"], status := "partially_filled", region := none }) ∧
    (recordAssignment
      { pickup_address := "A", date := "D", start_time := none, end_time := none,
        total_capacity := some 2, remaining_capacity := some 1,
        paired_riders := ["r1"], status := "partially_filled", region := none }
      "r2").paired_riders = ["r1"] ++ ["r2"] :=
  ⟨(C5_record_assignment_idempotent _ "r1").1 (by simp),
   ((C5_record_assignment_idempotent _ "r2").2 (by simp)).1⟩

/-- C4: consuming a matched rider's availability finds the date entry
case-insensitively, tags the first qualifying slot with the drive id,
deletes the entire date entry from the stored availability, and returns
true; a missing rider or missing date entry returns false with no
write. -/
theorem C4_consume_availability :
    (∀ (date : String) (st et : Option String) (id : String),
      update_rider_availability none date st et id = (false, none)) ∧
    (∀ (r : Rider) (date : String) (st et : Option String) (id : String),
      r.availability.find? (fun kv => toLowerStr kv.1 = toLowerStr date) = none →
      update_rider_availability (some r) date st et id = (false, none)) ∧
    (∀ (r : Rider) (date : String) (st et : Option String) (id : String)
       (key : String) (slots : List Slot),
      r.availability.find? (fun kv => toLowerStr kv.1 = toLowerStr date) =
        some (key, slots) →
      update_rider_availability (some r) date st et id =
        (true, some (dDel r.availability key))) ∧
    (∀ (slots : List Slot) (st et : Option String) (id : String),
      (∀ sl ∈ slots,
        (pyTruthyStr sl.start && pyTruthyStr sl.stop &&
          time_overlaps sl.start sl.stop st et) = false) →
      tagFirstOverlap slots st et id = slots) ∧
    (∀ (pre post : List Slot) (sl : Slot) (st et : Option String) (id : String),
      (∀ x ∈ pre,
        (pyTruthyStr x.start && pyTruthyStr x.stop &&
          time_overlaps x.start x.stop st et) = false) →
      (pyTruthyStr sl.start && pyTruthyStr sl.stop &&
        time_overlaps sl.start sl.stop st et) = true →
      tagFirstOverlap (pre ++ sl :: post) st et id =
        pre ++ { sl with driver := some id } :: post) := by
  refine ⟨?_, ?_, ?_, ?_, ?_⟩
  · intro date st et id
    rfl
  · intro r date st et id h
    simp [update_rider_availability, h]
  · intro r date st et id key slots h
    simp [update_rider_availability, h, dDel_dSet]
  · intro slots st et id h
    induction slots with
    | nil => rfl
    | cons sl rest ih =>
      have hsl := h sl (by simp)
      rw [tagFirstOverlap, if_neg (by simp [hsl]), ih (fun x hx => h x (by simp [hx]))]
  · intro pre post sl st et id hpre hsl
    induction pre with
    | nil => rw [List.nil_append, tagFirstOverlap, if_pos hsl, List.nil_append]
    | cons p rest ih =>
      have hp := hpre p (by simp)
      rw [List.cons_append, tagFirstOverlap, if_neg (by simp [hp]),
        ih (fun x hx => hpre x (by simp [hx])), List.cons_append]

/-- Witness for C4 on a concrete rider with a two-slot date entry. -/
theorem C4_consume_availability_witness :
    update_rider_availability
      (some { id := "r1", name := "R", email := "r@x",
              availability :=
                [("Monday, 12/16/24",
                  [{ start := some "8:00", stop := some "8:30", driver := none },
                   { start := some "9:00", stop := some "10:00", driver := none }]),
                 ("Tuesday, 12/17/24",
                  [{ start := some "9:00", stop := some "10:00", driver := none }])],
              divisions := [("central", true)] })
      "monday, 12/16/24" (some "9:15") (some "9:45") "drv1" =
      (true, some [("Tuesday, 12/17/24",
        [{ start := some "9:00", stop := some "10:00", driver := none }])]) ∧
    tagFirstOverlap
      [{ start := some "8:00", stop := some "8:30", driver := none },
       { start := some "9:00", stop := some "10:00", driver := none }]
      (some "9:15") (some "9:45") "drv1" =
      [{ start := some "8:00", stop := some "8:30", driver := none }] ++
        [{ start := some "9:00", stop := some "10:00", driver := some "drv1" }] := by
  constructor
  · exact (C4_consume_availability.2.2.1 _ "monday, 12/16/24" (some "9:15") (some "9:45")
      "drv1" "Monday, 12/16/24"
      [{ start := some "8:00", stop := some "8:30", driver := none },
       { start := some "9:00", stop := some "10:00", driver := none }] (by rfl)).trans
      (by rfl)
  · exact C4_consume_availability.2.2.2.2
      [{ start := some "8:00", stop := some "8:30", driver := none }] []
      { start := some "9:00", stop := some "10:00", driver := none }
      (some "9:15") (some "9:45") "drv1" (by intro x hx; simp at hx; subst hx; rfl)
      (by rfl)

/-- C1: the fairness score is the base value (in [1,1000], a function of
week key and email only) plus 1000 per pairing this week, so a strictly
smaller pairing count always gives a strictly smaller score, comparable
scores bound the counts, and the capacity-bounded selection never keeps a
higher-scored compatible rider while dropping a lower-scored one. -/
theorem C1_fairness_score_dominance :
    (∀ b c : ℕ, 1 ≤ b → b ≤ 1000 →
      1000 * c < calculate_priority_score b c ∧
      calculate_priority_score b c ≤ 1000 * (c + 1)) ∧
    (∀ b1 c1 b2 c2 : ℕ, 1 ≤ b1 → b1 ≤ 1000 → 1 ≤ b2 → b2 ≤ 1000 → c1 < c2 →
      calculate_priority_score b1 c1 < calculate_priority_score b2 c2) ∧
    (∀ b1 c1 b2 c2 : ℕ, 1 ≤ b1 → b1 ≤ 1000 → 1 ≤ b2 → b2 ≤ 1000 →
      calculate_priority_score b1 c1 ≤ calculate_priority_score b2 c2 → c1 ≤ c2) ∧
    (∀ (priority : Rider → ℕ) (driver_regions : List String)
       (all_riders : List Rider) (date : String) (st et : Option String)
       (cap : Int) (x y : CompatRider),
      x ∈ selected_riders priority driver_regions all_riders date st et cap →
      y ∈ compatibleRiders priority driver_regions all_riders date st et →
      y ∉ selected_riders priority driver_regions all_riders date st et cap →
      x.priority_score ≤ y.priority_score) := by
  refine ⟨?_, ?_, ?_, ?_⟩
  · intro b c h1 h2
    unfold calculate_priority_score
    omega
  · intro b1 c1 b2 c2 h1 h2 h3 h4 h5
    unfold calculate_priority_score
    omega
  · intro b1 c1 b2 c2 h1 h2 h3 h4 h5
    unfold calculate_priority_score at h5
    omega
  · intro priority regions pool date st et cap x y hx hy hyn
    have hr : ∀ a b : CompatRider,
        (fun a b : CompatRider => a.priority_score ≤ b.priority_score) a b ↔
          a.priority_score ≤ b.priority_score := fun _ _ => Iff.rfl
    haveI : IsTotal CompatRider
        (fun a b : CompatRider => a.priority_score ≤ b.priority_score) :=
      ⟨fun a b => Nat.le_total a.priority_score b.priority_score⟩
    haveI : IsTrans CompatRider
        (fun a b : CompatRider => a.priority_score ≤ b.priority_score) :=
      ⟨fun _ _ _ hab hbc => le_trans hab hbc⟩
    unfold selected_riders pySliceTo at hx hyn
    have hsorted :=
      List.sorted_insertionSort
        (fun a b : CompatRider => a.priority_score ≤ b.priority_score)
        (compatibleRiders priority regions pool date st et)
    have hyL : y ∈ (compatibleRiders priority regions pool date st et).insertionSort
        (fun a b : CompatRider => a.priority_score ≤ b.priority_score) :=
      (List.mem_insertionSort _).mpr hy
    set L := (compatibleRiders priority regions pool date st et).insertionSort
      (fun a b : CompatRider => a.priority_score ≤ b.priority_score) with hL
    set k := (if cap < 0 then L.length - (-cap).toNat else cap.toNat) with hk
    have hyd : y ∈ L.drop k := by
      have := (List.take_append_drop k L) ▸ hyL
      rcases List.mem_append.mp this with h | h
      · exact absurd h hyn
      · exact h
    have hpair : List.Pairwise
        (fun a b : CompatRider => a.priority_score ≤ b.priority_score) L :=
      hsorted
    have hsplit := List.pairwise_append.mp ((List.take_append_drop k L).symm ▸ hpair)
    exact hsplit.2.2 x hx y hyd

/-- Witness for C1: the spec scenario with capacity 2 and three
compatible riders whose pairing counts are 0, 0, 1 (scores 900, 100 and
1500): the count-1 rider is left out and scores no lower than any
selected rider. -/
theorem C1_fairness_score_dominance_witness :
    calculate_priority_score 999 0 < calculate_priority_score 1 1 ∧
    (⟨"r1", "A", "a@x", 900, 0⟩ : CompatRider).priority_score ≤
      (⟨"r3", "C", "c@x", 1500, 0⟩ : CompatRider).priority_score := by
  constructor
  · exact C1_fairness_score_dominance.2.1 999 0 1 1 (by norm_num) (by norm_num)
      (by norm_num) (by norm_num) (by norm_num)
  · exact C1_fairness_score_dominance.2.2.2
      (fun r => if r.id = "r2" then 100 else if r.id = "r1" then 900 else 1500)
      ["central"]
      [{ id := "r1", name := "A", email := "a@x",
         availability :=
           [("Friday, 01/10/25", [{ start := some "9:00", stop := some "10:00", driver := none }])],
         divisions := [("central", true)] },
       { id := "r2", name := "B", email := "b@x",
         availability :=
           [("Friday, 01/10/25", [{ start := some "9:00", stop := some "10:00", driver := none }])],
         divisions := [("central", true)] },
       { id := "r3", name := "C", email := "c@x",
         availability :=
           [("Friday, 01/10/25", [{ start := some "9:00", stop := some "10:00", driver := none }])],
         divisions := [("central", true)] }]
      "Friday, 01/10/25" (some "9:00") (some "10:00") 2
      ⟨"r1", "A", "a@x", 900, 0⟩ ⟨"r3", "C", "c@x", 1500, 0⟩
      (by decide) (by decide) (by decide)

/-- C3 counterexample: `pair_riders_with_drive` performs no Unknown-region
rejection of its own.  A pickup point outside every bounding box (and
without the address keyword) classifies to exactly `["Unknown"]`, yet a
rider whose stored divisions mark "Unknown" as true is still selected for
that drive, so the claimed empty result is refuted at this input. -/
theorem C3_counterexample :
    get_region "X" 0 0 = ["Unknown"] ∧
    pair_riders_with_drive (some (0, 0)) (fun _ => 500)
      [{ id := "r1", name := "A", email := "a@x",
         availability :=
           [("Friday, 01/10/25",
             [{ start := some "9:00", stop := some "10:00", driver := none }])],
         divisions := [("Unknown", true)] }]
      "Friday, 01/10/25" (some "9:00") (some "10:00") "X" 1 = ["r1"] := by
  have hsub : containsSub "pierpont" (toLowerStr "X") = false := rfl
  have hregion : get_region "X" 0 0 = ["Unknown"] := by
    unfold get_region
    norm_num [hsub]
  refine ⟨hregion, ?_⟩
  unfold pair_riders_with_drive
  dsimp only
  rw [hregion]
  decide

/-- C3 amended: a failed geocode does return the empty selection, but a
drive whose pickup classifies to `["Unknown"]` is not rejected; instead
the sentinel is treated like an ordinary region name, so every selected
rider merely has some region of the drive's classification (possibly
"Unknown" itself) marked true in its divisions. -/
theorem C3_geocode_and_region_filter :
    (∀ (priority : Rider → ℕ) (pool : List Rider) (date : String)
       (st et : Option String) (addr : String) (cap : Int),
      pair_riders_with_drive none priority pool date st et addr cap = []) ∧
    (∀ (lat lng : ℚ) (priority : Rider → ℕ) (pool : List Rider) (date : String)
       (st et : Option String) (addr : String) (cap : Int) (id : String),
      id ∈ pair_riders_with_drive (some (lat, lng)) priority pool date st et addr cap →
      ∃ r ∈ pool, r.id = id ∧
        (get_region addr lat lng).any
          (fun reg => (dGet r.divisions reg).getD false) = true) := by
  constructor
  · intro priority pool date st et addr cap
    rfl
  · intro lat lng priority pool date st et addr cap id hid
    unfold pair_riders_with_drive at hid
    rcases List.mem_map.mp hid with ⟨e, he, heid⟩
    have heC : e ∈ compatibleRiders priority (get_region addr lat lng) pool date st et := by
      have h1 := List.take_subset _ _ he
      exact (List.mem_insertionSort _).mp h1
    rcases List.mem_filterMap.mp heC with ⟨r, hr, hfr⟩
    cases hfind : r.availability.find? (fun kv => toLowerStr kv.1 = toLowerStr date) with
    | none => rw [hfind] at hfr; exact absurd hfr (by simp)
    | some kv =>
      obtain ⟨key, slots⟩ := kv
      rw [hfind] at hfr
      by_cases h1 : slots.any (slotEligible st et)
      · by_cases h2 : (get_region addr lat lng).any
            (fun reg => (dGet r.divisions reg).getD false)
        · refine ⟨r, hr, ?_, h2⟩
          simp only [h1, h2, if_true] at hfr
          cases hfr
          exact heid
        · simp [h1, h2] at hfr
      · simp [h1] at hfr

/-- Witness for C3 amended at concrete inputs: a failed geocode yields no
selection, and for the Unknown-classified drive of the counterexample the
selected rider is produced by the pool with its "Unknown" division set. -/
theorem C3_geocode_and_region_filter_witness :
    pair_riders_with_drive none (fun _ => 0) [] "D" none none "A" 1 = [] ∧
    (∃ r, r ∈ ([{ id := "r1", name := "A", email := "a@x",
                   availability :=
                     [("Friday, 01/10/25",
                       [{ start := some "9:00", stop := some "10:00", driver := none }])],
                   divisions := [("Unknown", true)] }] : List Rider) ∧ r.id = "r1" ∧
      (get_region "X" 0 0).any
        (fun reg => (dGet r.divisions reg).getD false) = true) := by
  constructor
  · exact C3_geocode_and_region_filter.1 (fun _ => 0) [] "D" none none "A" 1
  · refine C3_geocode_and_region_filter.2 0 0 (fun _ => 500) _
      "Friday, 01/10/25" (some "9:00") (some "10:00") "X" 1 "r1" ?_
    have hsub : containsSub "pierpont" (toLowerStr "X") = false := rfl
    have hregion : get_region "X" 0 0 = ["Unknown"] := by
      unfold get_region
      norm_num [hsub]
    unfold pair_riders_with_drive
    dsimp only
    rw [hregion]
    decide

/-- C8 counterexample: the week key uses the calendar year, not the ISO
year.  "Monday, 12/30/24" and "Wednesday, 01/01/25" lie in the same ISO
week (2025, week 1) yet get the different keys "2024-1" and "2025-1";
conversely "Monday, 01/01/24" lies in a different ISO week (2024, week 1)
than "Monday, 12/30/24" yet gets the same key "2024-1". -/
theorem C8_counterexample :
    get_week_key_from_date "Monday, 12/30/24" = some "2024-1" ∧
    get_week_key_from_date "Wednesday, 01/01/25" = some "2025-1" ∧
    isoWeekPair 2024 12 30 = (2025, 1) ∧
    isoWeekPair 2025 1 1 = (2025, 1) ∧
    get_week_key_from_date "Monday, 01/01/24" = some "2024-1" ∧
    isoWeekPair 2024 1 1 = (2024, 1) ∧
    isoWeekKeySpec "Monday, 12/30/24" = some "2025-1" :=
  ⟨rfl, rfl, rfl, rfl, rfl, rfl, rfl⟩

/-- C8 amended: for a well-formed date label the week key is the calendar
year of the parsed date paired with its ISO week number; this coincides
with the spec's ISO (year, week) pair exactly when the ISO year equals
the calendar year, which fails near year boundaries. -/
theorem C8_week_key_calendar_year (s : String) (y m d : ℕ)
    (h : parseDateLabel s = some (y, m, d)) :
    get_week_key_from_date s =
      some (toString y ++ "-" ++ toString (isoWeekPair y m d).2) ∧
    ((isoWeekPair y m d).1 = y →
      get_week_key_from_date s = isoWeekKeySpec s) := by
  constructor
  · unfold get_week_key_from_date
    rw [h]
  · intro hiso
    unfold get_week_key_from_date isoWeekKeySpec
    rw [h]
    dsimp only
    rw [hiso]

/-- Witness for C8 amended on a mid-week date where the two year notions
agree. -/
theorem C8_week_key_calendar_year_witness :
    get_week_key_from_date "Monday, 12/16/24" =
      some (toString 2024 ++ "-" ++ toString (isoWeekPair 2024 12 16).2) ∧
    get_week_key_from_date "Monday, 12/16/24" = isoWeekKeySpec "Monday, 12/16/24" :=
  ⟨(C8_week_key_calendar_year "Monday, 12/16/24" 2024 12 16 rfl).1,
   (C8_week_key_calendar_year "Monday, 12/16/24" 2024 12 16 rfl).2 rfl⟩

/-! ## Further dict lemmas, for the signup write-back proofs -/

theorem dGet_dSet_same {β : Type} (m : List (String × β)) (k : String) (v : β) :
    dGet (dSet m k v) k = some v := by
  induction m with
  | nil => simp [dSet, dGet]
  | cons hd tl ih =>
    obtain ⟨k', v'⟩ := hd
    by_cases h : k' = k <;> simp [dSet, dGet, h, ih]

theorem dGet_dSet_ne {β : Type} (m : List (String × β)) (k' k : String) (v : β)
    (h : k' ≠ k) : dGet (dSet m k' v) k = dGet m k := by
  induction m with
  | nil => simp [dSet, dGet, h]
  | cons hd tl ih =>
    obtain ⟨a, b⟩ := hd
    by_cases ha : a = k' <;> by_cases hk : a = k <;>
      simp_all [dSet, dGet]

theorem dGet_dDel_ne {β : Type} (m : List (String × β)) (k' k : String)
    (h : k' ≠ k) : dGet (dDel m k') k = dGet m k := by
  induction m with
  | nil => simp [dDel]
  | cons hd tl ih =>
    obtain ⟨a, b⟩ := hd
    by_cases ha : a = k' <;> by_cases hk : a = k <;>
      simp_all [dDel, dGet]

theorem dGet_none_iff {β : Type} (m : List (String × β)) (k : String) :
    dGet m k = none ↔ k ∉ m.map Prod.fst := by
  induction m with
  | nil => simp [dGet]
  | cons hd tl ih =>
    obtain ⟨a, b⟩ := hd
    by_cases ha : a = k
    · subst ha
      simp [dGet]
    · rw [dGet, if_neg ha]
      simp only [List.map_cons, List.mem_cons]
      rw [ih]
      constructor
      · intro h
        rintro (rfl | hm)
        · exact ha rfl
        · exact h hm
      · intro h hm
        exact h (Or.inr hm)

theorem dGet_dDel_nodup {β : Type} (m : List (String × β)) (k : String)
    (h : (m.map Prod.fst).Nodup) : dGet (dDel m k) k = none := by
  induction m with
  | nil => simp [dDel, dGet]
  | cons hd tl ih =>
    obtain ⟨a, b⟩ := hd
    simp only [List.map_cons, List.nodup_cons] at h
    by_cases ha : a = k
    · subst ha
      rw [dDel, if_pos rfl]
      exact (dGet_none_iff tl a).mpr h.1
    · rw [dDel, if_neg ha, dGet, if_neg ha]
      exact ih h.2

theorem dGet_dDel_none {β : Type} (m : List (String × β)) (k' k : String)
    (h : dGet m k = none) : dGet (dDel m k') k = none := by
  induction m with
  | nil => simp [dDel, dGet]
  | cons hd tl ih =>
    obtain ⟨a, b⟩ := hd
    by_cases ha : a = k' <;> by_cases hk : a = k <;>
      simp_all [dDel, dGet]

theorem mem_mapFst_dSet {β : Type} (m : List (String × β)) (k a : String) (v : β) :
    a ∈ (dSet m k v).map Prod.fst ↔ a ∈ m.map Prod.fst ∨ a = k := by
  induction m with
  | nil => simp [dSet, eq_comm]
  | cons hd tl ih =>
    obtain ⟨k', v'⟩ := hd
    by_cases h : k' = k
    · subst h
      simp [dSet, eq_comm]
      tauto
    · simp [dSet, h, ih]
      tauto

theorem nodup_mapFst_dSet {β : Type} (m : List (String × β)) (k : String) (v : β)
    (h : (m.map Prod.fst).Nodup) : ((dSet m k v).map Prod.fst).Nodup := by
  induction m with
  | nil => simp [dSet]
  | cons hd tl ih =>
    obtain ⟨k', v'⟩ := hd
    simp only [List.map_cons, List.nodup_cons] at h
    by_cases hk : k' = k
    · subst hk
      simpa [dSet, List.nodup_cons] using h
    · rw [dSet, if_neg hk]
      simp only [List.map_cons, List.nodup_cons]
      refine ⟨?_, ih h.2⟩
      rw [mem_mapFst_dSet]
      rintro (hm | hm)
      · exact h.1 hm
      · exact hk hm

theorem dGet_eq_of_mem_nodup {β : Type} (m : List (String × β)) (k : String) (v : β)
    (hnd : (m.map Prod.fst).Nodup) (hm : (k, v) ∈ m) : dGet m k = some v := by
  induction m with
  | nil => simp at hm
  | cons hd tl ih =>
    obtain ⟨a, b⟩ := hd
    simp only [List.map_cons, List.nodup_cons] at hnd
    rcases List.mem_cons.mp hm with h | h
    · cases h
      simp [dGet]
    · have hak : a ≠ k := by
        intro hak
        subst hak
        exact hnd.1 (List.mem_map.mpr ⟨(a, v), h, rfl⟩)
      rw [dGet, if_neg hak]
      exact ih hnd.2 h

theorem dDel_sublist {β : Type} (m : List (String × β)) (k : String) :
    (dDel m k).Sublist m := by
  induction m with
  | nil => simp [dDel]
  | cons hd tl ih =>
    obtain ⟨a, b⟩ := hd
    by_cases ha : a = k
    · rw [dDel, if_pos ha]
      exact (List.sublist_cons_self _ _)
    · rw [dDel, if_neg ha]
      exact ih.cons₂ _

theorem dGet_foldl_del_of_not {β : Type} (p : String → Prop) [DecidablePred p]
    (ks : List String) (m : List (String × β)) (k : String)
    (h : ¬ p k ∨ k ∉ ks) :
    dGet (ks.foldl (fun m' d => if p d then dDel m' d else m') m) k = dGet m k := by
  induction ks generalizing m with
  | nil => rfl
  | cons a ks ih =>
    rw [List.foldl_cons]
    have hstep : dGet (if p a then dDel m a else m) k = dGet m k := by
      by_cases hpa : p a
      · rw [if_pos hpa]
        have hak : a ≠ k := by
          rintro rfl
          rcases h with h | h
          · exact h hpa
          · exact h (List.mem_cons_self _ _)
        exact dGet_dDel_ne _ _ _ hak
      · rw [if_neg hpa]
    rw [ih _ ?_, hstep]
    rcases h with h | h
    · exact Or.inl h
    · exact Or.inr (fun hm => h (List.mem_cons_of_mem _ hm))

theorem dGet_foldl_del_none {β : Type} (p : String → Prop) [DecidablePred p]
    (ks : List String) (m : List (String × β)) (k : String)
    (h : dGet m k = none) :
    dGet (ks.foldl (fun m' d => if p d then dDel m' d else m') m) k = none := by
  induction ks generalizing m with
  | nil => exact h
  | cons a ks ih =>
    rw [List.foldl_cons]
    refine ih _ ?_
    by_cases hpa : p a
    · rw [if_pos hpa]
      exact dGet_dDel_none _ _ _ h
    · rwa [if_neg hpa]

theorem dGet_foldl_del_of_mem {β : Type} (p : String → Prop) [DecidablePred p]
    (ks : List String) (m : List (String × β)) (k : String)
    (hnd : (m.map Prod.fst).Nodup) (hk : k ∈ ks) (hpk : p k) :
    dGet (ks.foldl (fun m' d => if p d then dDel m' d else m') m) k = none := by
  induction ks generalizing m with
  | nil => simp at hk
  | cons a ks ih =>
    rw [List.foldl_cons]
    by_cases hak : a = k
    · subst hak
      rw [if_pos hpk]
      exact dGet_foldl_del_none p ks _ _ (dGet_dDel_nodup _ _ hnd)
    · have hnd' : (((if p a then dDel m a else m)).map Prod.fst).Nodup := by
        by_cases hpa : p a
        · rw [if_pos hpa]
          exact ((dDel_sublist m a).map Prod.fst).nodup hnd
        · rwa [if_neg hpa]
      have hk' : k ∈ ks := by
        rcases List.mem_cons.mp hk with h | h
        · exact absurd h.symm hak
        · exact h
      exact ih _ hnd' hk'

/-- C9 counterexample: the self-service signup rewrite does not leave
other dates alone — a Tuesday availability entry in the same ISO week as
the Monday drive is deleted by the signup for the Monday drive. -/
theorem C9_counterexample :
    signupUpdatedAvailability
      [("Monday, 12/16/24",
        [{ start := some "9:00", stop := some "10:00", driver := none }]),
       ("Tuesday, 12/17/24",
        [{ start := some "14:00", stop := some "15:00", driver := none }])]
      "Monday, 12/16/24"
      { start := some "9:00", stop := some "10:00", driver := some "drv1" } =
      [("Monday, 12/16/24",
        [{ start := some "9:00", stop := some "10:00", driver := some "drv1" }])] ∧
    dGet
      ([("Monday, 12/16/24",
         [{ start := some "9:00", stop := some "10:00", driver := none }]),
        ("Tuesday, 12/17/24",
         [{ start := some "14:00", stop := some "15:00", driver := none }])] :
        List (String × List Slot))
      "Tuesday, 12/17/24" =
      some [{ start := some "14:00", stop := some "15:00", driver := none }] :=
  ⟨rfl, rfl⟩

/-- C9 amended: signup installs exactly one slot for the drive's date and
deletes every other date entry whose week key equals the drive's week
key; only entries whose week key differs are left unchanged. -/
theorem C9_signup_availability_frame (avail : List (String × List Slot))
    (drive_date : String) (slot : Slot) (d : String)
    (hnd : (avail.map Prod.fst).Nodup) :
    dGet (signupUpdatedAvailability avail drive_date slot) drive_date = some [slot] ∧
    (d ≠ drive_date →
      get_week_key_from_date d ≠ get_week_key_from_date drive_date →
      dGet (signupUpdatedAvailability avail drive_date slot) d = dGet avail d) ∧
    (d ≠ drive_date →
      get_week_key_from_date d = get_week_key_from_date drive_date →
      dGet (signupUpdatedAvailability avail drive_date slot) d = none) := by
  unfold signupUpdatedAvailability
  refine ⟨?_, ?_, ?_⟩
  · rw [dGet_foldl_del_of_not _ _ _ _ (Or.inl (by simp))]
    exact dGet_dSet_same _ _ _
  · intro hne hwk
    rw [dGet_foldl_del_of_not _ _ _ _ (Or.inl (by simp [hwk]))]
    exact dGet_dSet_ne _ _ _ _ (Ne.symm hne)
  · intro hne hwk
    by_cases hm : d ∈ (dSet avail drive_date [slot]).map Prod.fst
    · exact dGet_foldl_del_of_mem _ _ _ _
        (nodup_mapFst_dSet _ _ _ hnd) hm ⟨hne, hwk⟩
    · rw [dGet_foldl_del_of_not _ _ _ _ (Or.inr hm)]
      exact (dGet_none_iff _ _).mpr hm

/-- Witness for C9 amended at the counterexample's data: the Monday entry
holds exactly the signup slot and the same-week Tuesday entry is gone. -/
theorem C9_signup_availability_frame_witness :
    dGet (signupUpdatedAvailability
      [("Monday, 12/16/24",
        [{ start := some "9:00", stop := some "10:00", driver := none }]),
       ("Tuesday, 12/17/24",
        [{ start := some "14:00", stop := some "15:00", driver := none }])]
      "Monday, 12/16/24"
      { start := some "9:00", stop := some "10:00", driver := some "drv1" })
      "Monday, 12/16/24" =
      some [{ start := some "9:00", stop := some "10:00", driver := some "drv1" }] ∧
    dGet (signupUpdatedAvailability
      [("Monday, 12/16/24",
        [{ start := some "9:00", stop := some "10:00", driver := none }]),
       ("Tuesday, 12/17/24",
        [{ start := some "14:00", stop := some "15:00", driver := none }])]
      "Monday, 12/16/24"
      { start := some "9:00", stop := some "10:00", driver := some "drv1" })
      "Tuesday, 12/17/24" = none :=
  ⟨(C9_signup_availability_frame _ "Monday, 12/16/24" _ "Tuesday, 12/17/24"
      (by decide)).1,
   (C9_signup_availability_frame _ "Monday, 12/16/24" _ "Tuesday, 12/17/24"
      (by decide)).2.2 (by decide) (by rfl)⟩

theorem mem_mapFst_of_dGet {β : Type} (m : List (String × β)) (k : String) (v : β)
    (h : dGet m k = some v) : k ∈ m.map Prod.fst := by
  by_contra hm
  rw [(dGet_none_iff m k).mpr hm] at h
  exact Option.noConfusion h

theorem nodup_mapFst_foldl_dSetPairs (l : List (String × Bool))
    (m : List (String × Bool)) (h : (m.map Prod.fst).Nodup) :
    ((l.foldl (fun m' kv => dSet m' kv.1 kv.2) m).map Prod.fst).Nodup := by
  induction l generalizing m with
  | nil => exact h
  | cons a l ih =>
    rw [List.foldl_cons]
    exact ih _ (nodup_mapFst_dSet _ _ _ h)

theorem nodup_mapFst_foldl_setTrue (ks : List String)
    (m : List (String × Bool)) (h : (m.map Prod.fst).Nodup) :
    ((ks.foldl (fun m' k => dSet m' k true) m).map Prod.fst).Nodup := by
  induction ks generalizing m with
  | nil => exact h
  | cons a ks ih =>
    rw [List.foldl_cons]
    exact ih _ (nodup_mapFst_dSet _ _ _ h)

theorem dGet_foldl_setTrue (ks : List String) (m : List (String × Bool)) (k : String)
    (h : k ∈ ks ∨ dGet m k = some true) :
    dGet (ks.foldl (fun m' k' => dSet m' k' true) m) k = some true := by
  induction ks generalizing m with
  | nil =>
    rcases h with h | h
    · simp at h
    · exact h
  | cons a ks ih =>
    rw [List.foldl_cons]
    refine ih _ ?_
    by_cases hak : a = k
    · subst hak
      exact Or.inr (dGet_dSet_same _ _ _)
    · rcases h with h | h
      · rcases List.mem_cons.mp h with h | h
        · exact absurd h.symm hak
        · exact Or.inl h
      · exact Or.inr ((dGet_dSet_ne _ _ _ _ hak).trans h)

theorem dGet_foldl_orMerge (l : List (String × Bool)) (m : List (String × Bool))
    (k : String) (hall : ∀ v, (k, v) ∈ l → v = true)
    (h : k ∈ l.map Prod.fst ∨ dGet m k = some true) :
    dGet (l.foldl
      (fun m' kv => dSet m' kv.1 ((dGet m' kv.1).getD false || kv.2)) m) k =
      some true := by
  induction l generalizing m with
  | nil =>
    rcases h with h | h
    · simp at h
    · exact h
  | cons av l ih =>
    obtain ⟨a, v⟩ := av
    rw [List.foldl_cons]
    refine ih _ (fun w hw => hall w (List.mem_cons_of_mem _ hw)) ?_
    by_cases hak : a = k
    · subst hak
      have hv : v = true := hall v (List.mem_cons_self _ _)
      subst hv
      refine Or.inr ?_
      rw [dGet_dSet_same, Bool.or_true]
    · rcases h with h | h
      · rcases List.mem_cons.mp h with h | h
        · exact absurd h.symm hak
        · exact Or.inl h
      · exact Or.inr ((dGet_dSet_ne _ _ _ _ hak).trans h)

/-- C10: every region associated with the drive ends up true in the
stored divisions regardless of the submitted flags — in the merged map
used for a new rider, and in the updated divisions of an existing
rider. -/
theorem C10_signup_forces_drive_regions (keys : List String)
    (regions divisions : List (String × Bool)) (k : String)
    (hk : k ∈ keys) (hnd : keys.Nodup) :
    dGet (signupMergedRegions keys regions) k = some true ∧
    dGet (signupUpdatedDivisions divisions (signupMergedRegions keys regions)) k =
      some true := by
  have hmerged : dGet (signupMergedRegions keys regions) k = some true := by
    unfold signupMergedRegions
    exact dGet_foldl_setTrue _ _ _ (Or.inl hk)
  refine ⟨hmerged, ?_⟩
  have hndm : ((signupMergedRegions keys regions).map Prod.fst).Nodup := by
    unfold signupMergedRegions
    apply nodup_mapFst_foldl_setTrue
    apply nodup_mapFst_foldl_dSetPairs
    simpa [List.map_map, Function.comp_def] using hnd
  have hall : ∀ v, (k, v) ∈ signupMergedRegions keys regions → v = true := by
    intro v hv
    have hg := dGet_eq_of_mem_nodup _ _ _ hndm hv
    exact Option.some.inj (hg.symm.trans hmerged)
  unfold signupUpdatedDivisions
  exact dGet_foldl_orMerge _ _ _ hall
    (Or.inl (mem_mapFst_of_dGet _ _ _ hmerged))

/-- Witness for C10: a submitted false for the drive's own region is
overridden to true for both storage shapes. -/
theorem C10_signup_forces_drive_regions_witness :
    dGet (signupMergedRegions ["central"] [("central", false)]) "central" =
      some true ∧
    dGet (signupUpdatedDivisions [("central", false)]
      (signupMergedRegions ["central"] [("central", false)])) "central" =
      some true :=
  ⟨(C10_signup_forces_drive_regions ["central"] [("central", false)]
      [("central", false)] "central" (by decide) (by decide)).1,
   (C10_signup_forces_drive_regions ["central"] [("central", false)]
      [("central", false)] "central" (by decide) (by decide)).2⟩

theorem length_pair_riders_le (geo : Option (ℚ × ℚ)) (priority : Rider → ℕ)
    (pool : List Rider) (date : String) (st et : Option String) (addr : String)
    (cap : Int) (hc : 0 ≤ cap) :
    ((pair_riders_with_drive geo priority pool date st et addr cap).length : Int) ≤ cap := by
  cases geo with
  | none => simpa using hc
  | some ll =>
    obtain ⟨lat, lng⟩ := ll
    unfold pair_riders_with_drive selected_riders pySliceTo
    dsimp only
    rw [List.length_map, List.length_take, if_neg (by omega : ¬ cap < 0)]
    have h1 := Nat.min_le_left cap.toNat
      (((compatibleRiders priority (get_region addr lat lng) pool date st et).insertionSort
        (fun a b => a.priority_score ≤ b.priority_score)).length)
    omega

theorem statusSpec_iffs (r t : Int) (hr : 0 ≤ r) (ht : 1 ≤ t) :
    (((if r = 0 then "filled"
       else if r < t then "partially_filled" else "available") : String) = "filled" ↔
      r = 0) ∧
    (((if r = 0 then "filled"
       else if r < t then "partially_filled" else "available") : String) =
        "partially_filled" ↔ 0 < r ∧ r < t) ∧
    (((if r = 0 then "filled"
       else if r < t then "partially_filled" else "available") : String) =
        "available" ↔ t ≤ r) := by
  by_cases h0 : r = 0
  · rw [if_pos h0]
    refine ⟨by simp [h0], ?_, ?_⟩
    · constructor
      · intro hc
        exact absurd hc (by decide)
      · intro hc
        omega
    · constructor
      · intro hc
        exact absurd hc (by decide)
      · intro hc
        omega
  · rw [if_neg h0]
    by_cases hlt : r < t
    · rw [if_pos hlt]
      refine ⟨?_, by simp; omega, ?_⟩
      · constructor
        · intro hc
          exact absurd hc (by decide)
        · intro hc
          omega
      · constructor
        · intro hc
          exact absurd hc (by decide)
        · intro hc
          omega
    · rw [if_neg hlt]
      refine ⟨?_, ?_, by simp; omega⟩
      · constructor
        · intro hc
          exact absurd hc (by decide)
        · intro hc
          omega
      · constructor
        · intro hc
          exact absurd hc (by decide)
        · intro hc
          omega

theorem C2_core_invariant_aux (d : Drive) (h : DriveReachCore d) :
    ∃ t r : Int, d.total_capacity = some t ∧ d.remaining_capacity = some r ∧
      1 ≤ t ∧ r = max 0 (t - d.paired_riders.length) ∧
      d.status =
        (if r = 0 then "filled"
         else if r < t then "partially_filled" else "available") := by
  induction h with
  | created addr date st et cap geo priority pool hcap =>
    have hlen := length_pair_riders_le geo priority pool date st et addr cap (by omega)
    by_cases hPe : pair_riders_with_drive geo priority pool date st et addr cap = []
    · refine ⟨cap, cap, ?_, ?_, hcap, ?_, ?_⟩
      · simp [applyPairing, initialDrive, hPe]
      · simp [applyPairing, initialDrive, hPe]
      · simp only [applyPairing, initialDrive, hPe, if_pos, List.length_nil]
        omega
      · simp only [applyPairing, initialDrive, hPe, if_pos]
        rw [if_neg (by omega), if_neg (by omega)]
    · have hpos : 0 < (pair_riders_with_drive geo priority pool date st et addr cap).length :=
        List.length_pos.mpr hPe
      refine ⟨cap,
        cap - (pair_riders_with_drive geo priority pool date st et addr cap).length,
        ?_, ?_, hcap, ?_, ?_⟩
      · simp [applyPairing, initialDrive, hPe]
      · simp [applyPairing, initialDrive, hPe]
      · simp only [applyPairing, initialDrive, if_neg hPe]
        omega
      · simp only [applyPairing, initialDrive, if_neg hPe]
        by_cases hlt :
          ((pair_riders_with_drive geo priority pool date st et addr cap).length : Int) < cap
        · rw [if_pos hlt, if_neg (by omega), if_pos (by omega)]
        · rw [if_neg hlt, if_pos (by omega)]
  | signup d rid hd ih =>
    obtain ⟨t, r, ht, hr, h1t, hmax, hst⟩ := ih
    by_cases hmem : rid ∈ d.paired_riders
    · rw [recordAssignment, if_pos hmem]
      exact ⟨t, r, ht, hr, h1t, hmax, hst⟩
    · rw [recordAssignment, if_neg hmem]
      refine ⟨t, max 0 (r - 1), by simpa using ht, ?_, h1t, ?_, ?_⟩
      · simp [hr]
      · simp only [List.length_append, List.length_singleton]
        push_cast
        omega
      · simp only [hr, ht, Option.getD_some]

/-- C2 counterexample: a second signup on a full capacity-1 drive grows
`pairedRiders` past capacity while `remainingCapacity` stays at its floor
of 0, breaking `remaining = total - |paired|`; and the direct capacity
edit stores any client-supplied value (here 5 on a capacity-2 drive with
no riders, and -1, a negative remaining capacity) while only recomputing
the status. -/
theorem C2_counterexample :
    DriveReach (recordAssignment (recordAssignment
      (applyPairing (initialDrive "A" "D" none none 1)
        (pair_riders_with_drive none (fun _ => 0) [] "D" none none "A" 1) 1)
      "r1") "r2") ∧
    (recordAssignment (recordAssignment
      (applyPairing (initialDrive "A" "D" none none 1)
        (pair_riders_with_drive none (fun _ => 0) [] "D" none none "A" 1) 1)
      "r1") "r2").total_capacity = some 1 ∧
    (recordAssignment (recordAssignment
      (applyPairing (initialDrive "A" "D" none none 1)
        (pair_riders_with_drive none (fun _ => 0) [] "D" none none "A" 1) 1)
      "r1") "r2").remaining_capacity = some 0 ∧
    (recordAssignment (recordAssignment
      (applyPairing (initialDrive "A" "D" none none 1)
        (pair_riders_with_drive none (fun _ => 0) [] "D" none none "A" 1) 1)
      "r1") "r2").paired_riders = ["r1", "r2"] ∧
    (0 : Int) ≠ 1 - ([("r1" : String), "r2"].length : Int) ∧
    DriveReach (update_drive_capacity
      (applyPairing (initialDrive "A" "D" none none 2)
        (pair_riders_with_drive none (fun _ => 0) [] "D" none none "A" 2) 2) 5) ∧
    (update_drive_capacity
      (applyPairing (initialDrive "A" "D" none none 2)
        (pair_riders_with_drive none (fun _ => 0) [] "D" none none "A" 2) 2)
      5).remaining_capacity = some 5 ∧
    (update_drive_capacity
      (applyPairing (initialDrive "A" "D" none none 2)
        (pair_riders_with_drive none (fun _ => 0) [] "D" none none "A" 2) 2)
      5).total_capacity = some 2 ∧
    (update_drive_capacity
      (applyPairing (initialDrive "A" "D" none none 2)
        (pair_riders_with_drive none (fun _ => 0) [] "D" none none "A" 2) 2)
      5).paired_riders = [] ∧
    DriveReach (update_drive_capacity
      (applyPairing (initialDrive "A" "D" none none 2)
        (pair_riders_with_drive none (fun _ => 0) [] "D" none none "A" 2) 2) (-1)) ∧
    (update_drive_capacity
      (applyPairing (initialDrive "A" "D" none none 2)
        (pair_riders_with_drive none (fun _ => 0) [] "D" none none "A" 2) 2)
      (-1)).remaining_capacity = some (-1) := by
  refine ⟨?_, rfl, rfl, rfl, by decide, ?_, rfl, rfl, rfl, ?_, rfl⟩
  · exact DriveReach.signup _ "r2" (DriveReach.signup _ "r1"
      (DriveReach.created "A" "D" none none 1 none (fun _ => 0) []))
  · exact DriveReach.capEdit _ 5
      (DriveReach.created "A" "D" none none 2 none (fun _ => 0) [])
  · exact DriveReach.capEdit _ (-1)
      (DriveReach.created "A" "D" none none 2 none (fun _ => 0) [])

/-- C2 amended: for drive states reachable through creation (with a
positive capacity) and self-service signup — the direct capacity edit
excepted — `remainingCapacity = max 0 (totalCapacity - |pairedRiders|)`
(signup past capacity grows the list while the floor holds remaining at
0), remaining is never negative, and the status is filled exactly when
remaining is 0, partially_filled exactly when 0 < remaining < total, and
available otherwise. -/
theorem C2_capacity_status_invariant (d : Drive) (h : DriveReachCore d) :
    ∃ t r : Int, d.total_capacity = some t ∧ d.remaining_capacity = some r ∧
      1 ≤ t ∧ r = max 0 (t - d.paired_riders.length) ∧ 0 ≤ r ∧
      (d.status = "filled" ↔ r = 0) ∧
      (d.status = "partially_filled" ↔ 0 < r ∧ r < t) ∧
      (d.status = "available" ↔ t ≤ r) := by
  obtain ⟨t, r, ht, hr, h1t, hmax, hst⟩ := C2_core_invariant_aux d h
  have hr0 : 0 ≤ r := by omega
  obtain ⟨h1, h2, h3⟩ := statusSpec_iffs r t hr0 h1t
  exact ⟨t, r, ht, hr, h1t, hmax, hr0, by rw [hst]; exact h1, by rw [hst]; exact h2,
    by rw [hst]; exact h3⟩

/-- Witness for C2 amended: the invariant instantiated on a concrete
reachable drive (capacity-1 creation followed by one signup). -/
theorem C2_capacity_status_invariant_witness :
    ∃ t r : Int,
      (recordAssignment
        (applyPairing (initialDrive "A" "D" none none 1)
          (pair_riders_with_drive none (fun _ => 0) [] "D" none none "A" 1) 1)
        "r1").total_capacity = some t ∧
      (recordAssignment
        (applyPairing (initialDrive "A" "D" none none 1)
          (pair_riders_with_drive none (fun _ => 0) [] "D" none none "A" 1) 1)
        "r1").remaining_capacity = some r ∧
      1 ≤ t ∧
      r = max 0 (t - (recordAssignment
        (applyPairing (initialDrive "A" "D" none none 1)
          (pair_riders_with_drive none (fun _ => 0) [] "D" none none "A" 1) 1)
        "r1").paired_riders.length) ∧ 0 ≤ r ∧
      ((recordAssignment
        (applyPairing (initialDrive "A" "D" none none 1)
          (pair_riders_with_drive none (fun _ => 0) [] "D" none none "A" 1) 1)
        "r1").status = "filled" ↔ r = 0) ∧
      ((recordAssignment
        (applyPairing (initialDrive "A" "D" none none 1)
          (pair_riders_with_drive none (fun _ => 0) [] "D" none none "A" 1) 1)
        "r1").status = "partially_filled" ↔ 0 < r ∧ r < t) ∧
      ((recordAssignment
        (applyPairing (initialDrive "A" "D" none none 1)
          (pair_riders_with_drive none (fun _ => 0) [] "D" none none "A" 1) 1)
        "r1").status = "available" ↔ t ≤ r) :=
  C2_capacity_status_invariant _
    (DriveReachCore.signup _ "r1"
      (DriveReachCore.created "A" "D" none none 1 none (fun _ => 0) [] (by norm_num)))
